import Mathlib

/-!
# Shallow embedding of the watch-tracker application (`src/app.js`)

The repository contains two variants of `app.js`:

* a Shopify-JSON-feed variant, whose extractor is `scrapeShopifyStore`
  (structured-feed extractor), and
* an HTML-scraping variant, whose extractor is `scrapeFalcoWatches`
  (heuristic markup extractor).

Both variants share the same `WatchTracker.refresh` aggregation logic
(concatenate per-source results, throw when empty, sort by timestamp
descending, truncate to `MAX_WATCHES`).

JavaScript numbers appearing as prices are modelled by `JsNum`
(NaN / signed infinity / a sign with the exact scaled-decimal magnitude
`m * 10 ^ e`); timestamps
(epoch milliseconds, produced by `Date.now()` / `Date.prototype.getTime`)
are modelled by `Ts` (NaN or an integer).  External boundaries (HTTP fetch,
the DOM query-selector results, `localStorage`) are modelled as the data
the relevant code consumes.
-/

/-- A JavaScript timestamp value: `Date.prototype.getTime` returns either an
integer count of epoch milliseconds or NaN (invalid date). -/
inductive Ts where
  | nan : Ts
  | int : Int → Ts
deriving DecidableEq, Repr

/-- A JavaScript number as produced by `parseFloat`: NaN, a signed infinity,
or a finite value given by a sign and the exact magnitude `m * 10 ^ e`
(every decimal literal has this form; the mantissa rounding of IEEE doubles
is not modelled, as no claim depends on the low-order mantissa bits). -/
inductive JsNum where
  | nan : JsNum
  | inf : Bool → JsNum
  | fin : Bool → Nat → Int → JsNum
deriving DecidableEq, Repr

/-- A product record as pushed by the scrapers (`{name, price, size?, source,
timestamp}`).  The Shopify variant does not set `size`, so the field is an
`Option`; `timestamp` is an `Option Ts` because records deserialized from the
cache may lack the field (`undefined`), which the sort comparator guards with
`|| 0`. -/
structure Watch where
  name : String
  price : String
  size : Option String
  source : String
  timestamp : Option Ts
deriving DecidableEq, Repr

/-- `MAX_WATCHES` from `app.js`: the display cap. -/
def MAX_WATCHES : Nat := 10

/-- The sort key of `refresh`: `(w.timestamp || 0)`.  `undefined`, `NaN` and
`0` are all falsy in JavaScript, so each of them yields `0`. -/
def tsOrZero (w : Watch) : Int :=
  match w.timestamp with
  | none => 0
  | some Ts.nan => 0
  | some (Ts.int v) => if v = 0 then 0 else v

/-- The ordering relation realised by the comparator
`(a, b) => (b.timestamp || 0) - (a.timestamp || 0)`: `a` may precede `b`
exactly when the comparator is `≤ 0`, i.e. descending by `tsOrZero`. -/
def tsGe (a b : Watch) : Prop := tsOrZero b ≤ tsOrZero a

instance : DecidableRel tsGe :=
  fun a b => inferInstanceAs (Decidable (tsOrZero b ≤ tsOrZero a))

instance : IsTotal Watch tsGe :=
  ⟨fun a b => le_total (tsOrZero b) (tsOrZero a)⟩

instance : IsTrans Watch tsGe :=
  ⟨fun _ _ _ h1 h2 => le_trans h2 h1⟩

/-- `allWatches.sort((a, b) => (b.timestamp || 0) - (a.timestamp || 0))`:
`Array.prototype.sort` is specified to be stable, so it is modelled by the
stable insertion sort with the comparator's relation. -/
def sortWatches (l : List Watch) : List Watch :=
  List.insertionSort tsGe l

/-- Lines 116–119 of `refresh`: sort descending by timestamp and keep the
first `MAX_WATCHES` entries. -/
def aggregate (l : List Watch) : List Watch :=
  (sortWatches l).take MAX_WATCHES

/-- One configured source at refresh time: its `enabled` flag together with
the outcome of `await source.scraper(...)` — either a list of records or a
thrown error (network failure, non-2xx status, malformed feed). -/
structure Source where
  enabled : Bool
  result : Except String (List Watch)

/-- The source loop of `refresh` (lines 100–109): every enabled source is
attempted in registry order; a scraper that throws is caught, logged and
contributes no records. -/
def collectWatches (sources : List Source) : List Watch :=
  sources.foldl
    (fun acc s =>
      if s.enabled then
        match s.result with
        | Except.ok ws => acc ++ ws
        | Except.error _ => acc
      else acc)
    []

/-- The message of the error thrown by `refresh` when no records were
collected. -/
def noRecordsMsg : String :=
  "No watches found from any source. This may be due to CORS restrictions or network issues."

/-- The core state transition of `WatchTracker.refresh` (lines 92–129,
`DEMO_MODE = false`): given the tracker's current `this.watches` and the
outcomes of all configured sources, return the new `this.watches` together
with the error surfaced by the `catch` block, if any.  `this.watches` is
assigned only after the emptiness check throws past it. -/
def refresh (old : List Watch) (sources : List Source) :
    List Watch × Option String :=
  let allWatches := collectWatches sources
  if allWatches.length = 0 then (old, some noRecordsMsg)
  else (aggregate allWatches, none)

/-! ## `parseFloat` (ECMAScript §19.2.4)

`parseFloat` skips leading whitespace and evaluates the longest prefix that
is a `StrDecimalLiteral` — an optional sign followed by `Infinity`, or by
digits with an optional decimal point, an optional fraction, and an optional
exponent.  If no prefix parses, the result is NaN.  The mathematical value
is kept as an exact rational; magnitudes at or beyond the IEEE-double
rounding boundary `2^1024 - 2^970` become infinity. -/

/-- Numeric value of a (most-significant-first) digit string. -/
def digitsToNat (ds : List Char) : Nat :=
  ds.foldl (fun a c => 10 * a + (c.toNat - 48)) 0

/-- Parse the optional exponent part `e|E [+|-] digits` at the end of a
decimal literal; an `e` not followed by a digit contributes no exponent
(the literal prefix ends before it). -/
def parseExp (cs : List Char) : Int :=
  match cs with
  | 'e' :: rest | 'E' :: rest =>
    let signed : Bool × List Char :=
      match rest with
      | '+' :: t => (false, t)
      | '-' :: t => (true, t)
      | t => (false, t)
    let ds := (signed.2.takeWhile Char.isDigit)
    if ds.isEmpty then 0
    else if signed.1 then -(digitsToNat ds : Int) else (digitsToNat ds : Int)
  | _ => 0

/-- Smallest magnitude that rounds to IEEE-double infinity. -/
def ieeeInfBoundary : Nat := 2 ^ 1024 - 2 ^ 970

/-- Decide `c ≤ m * 10 ^ e` over the scaled-decimal magnitude. -/
def magGeNat (m : Nat) (e : Int) (c : Nat) : Bool :=
  match e with
  | Int.ofNat k => c ≤ m * 10 ^ k
  | Int.negSucc k => c * 10 ^ (k + 1) ≤ m

/-- Decide `m * 10 ^ e < c` over the scaled-decimal magnitude. -/
def magLtNat (m : Nat) (e : Int) (c : Nat) : Bool :=
  match e with
  | Int.ofNat k => m * 10 ^ k < c
  | Int.negSucc k => m < c * 10 ^ (k + 1)

/-- `parseFloat(s)`.  Lean's `Char.isWhitespace` covers the whitespace
characters exercised here (space, tab, CR, LF); the more exotic members of
ECMAScript's `StrWhiteSpaceChar` are not modelled. -/
def parseFloatJs (s : String) : JsNum :=
  let cs := s.data.dropWhile Char.isWhitespace
  let signed : Bool × List Char :=
    match cs with
    | '-' :: t => (true, t)
    | '+' :: t => (false, t)
    | t => (false, t)
  let neg := signed.1
  let cs1 := signed.2
  if "Infinity".data.isPrefixOf cs1 then JsNum.inf neg
  else
    let ip := cs1.takeWhile Char.isDigit
    let r1 := cs1.dropWhile Char.isDigit
    let frac : List Char × List Char :=
      match r1 with
      | '.' :: t => (t.takeWhile Char.isDigit, t.dropWhile Char.isDigit)
      | _ => ([], r1)
    let fp := frac.1
    if ip.isEmpty ∧ fp.isEmpty then JsNum.nan
    else
      -- value = (ip . fp) * 10 ^ exponent = m * 10 ^ e:
      let m := digitsToNat ip * 10 ^ fp.length + digitsToNat fp
      let e := parseExp frac.2 - (fp.length : Int)
      if magGeNat m e ieeeInfBoundary then JsNum.inf neg else JsNum.fin neg m e

/-! ## `Number.prototype.toFixed(2)` and number-to-string (ECMAScript §21.1.3) -/

/-- The character of a single decimal digit. -/
def digitChar (d : Nat) : Char := Char.ofNat (48 + d)

/-- Decimal digit characters of `n`, most significant first (fuel-based so
that it reduces definitionally; the fuel `n + 1` is always sufficient). -/
def natDigitsAux : Nat → Nat → List Char
  | 0, _ => []
  | fuel + 1, n =>
    if n < 10 then [digitChar n]
    else natDigitsAux fuel (n / 10) ++ [digitChar (n % 10)]

/-- Decimal digit characters of `n`, most significant first. -/
def natDigits (n : Nat) : List Char := natDigitsAux (n + 1) n

/-- `ToString` applied to a float of magnitude `≥ 10^21` uses exponential
notation (`d.dd…e+NN`).  Only the leading significand digit and the exponent
are modelled — no claim inspects this branch beyond the presence of the
`e`-form. -/
def jsExpNotation (m : Nat) (e : Int) : String :=
  match natDigits m with
  | [] => "0e+0"
  | d :: _ =>
    let exp : Int := ((natDigits m).length : Int) - 1 + e
    String.mk [d] ++ "e+" ++ String.mk (natDigits exp.toNat)

/-- `round(100 * m * 10 ^ e + 1/2)` — the integer printed by `toFixed(2)`:
ties round away from zero ("pick the larger n"). -/
def toFixed2Int (m : Nat) (e : Int) : Nat :=
  match e + 2 with
  | Int.ofNat k => m * 10 ^ k
  | Int.negSucc k => (2 * m + 10 ^ (k + 1)) / (2 * 10 ^ (k + 1))

/-- `x.toFixed(2)`: for finite `x` of magnitude below `10^21`, the integer
`n` nearest `100·x` (ties away from zero) printed with a decimal point
before its last two digits; the sign is printed when `x < 0`; magnitudes
`≥ 10^21` fall back to `ToString(x)`. -/
def jsToFixed2 : JsNum → String
  | JsNum.nan => "NaN"
  | JsNum.inf neg => if neg then "-Infinity" else "Infinity"
  | JsNum.fin neg m e =>
    let sign := if neg ∧ m ≠ 0 then "-" else ""
    if magLtNat m e (10 ^ 21) then
      let n : Nat := toFixed2Int m e
      sign ++ String.mk (natDigits (n / 100)) ++ "." ++
        String.mk [digitChar (n / 10 % 10), digitChar (n % 10)]
    else sign ++ jsExpNotation m e

/-! ## JavaScript string primitives

`String.prototype.trim`, `toLowerCase` and `length`, modelled over the
character list (all strings involved are ASCII, where UTF-16 length and
code-point length agree). -/

/-- `s.trim()`: strip whitespace from both ends. -/
def jsTrim (s : String) : String :=
  String.mk (((s.data.dropWhile Char.isWhitespace).reverse.dropWhile Char.isWhitespace).reverse)

/-- `s.toLowerCase()`. -/
def jsToLower (s : String) : String :=
  String.mk (s.data.map Char.toLower)

/-- `s.length`. -/
def jsLength (s : String) : Nat := s.data.length

/-! ## Structured-feed extractor: `scrapeShopifyStore` -/

/-- The `title` field of a feed entry as far as the code observes it: a
string, or a non-string JSON value (only its truthiness could matter, and
the `typeof` check rejects every non-string anyway). -/
inductive TitleVal where
  | str : String → TitleVal
  | nonstr : Bool → TitleVal
deriving DecidableEq, Repr

/-- One element of a Shopify product's `variants` array. -/
structure Variant where
  price : Option String
deriving DecidableEq, Repr

/-- One entry of the Shopify `products` array, restricted to the fields the
scraper reads. -/
structure Product where
  title : Option TitleVal
  variants : Option (List Variant)
  created_at : Option String
deriving DecidableEq, Repr

/-- `new Date(created_at).getTime()`, modelled from the ECMAScript
date-time interchange format `YYYY-MM-DD[THH:MM[:SS[.sss]]][Z|±HH:MM]`;
any other shape yields NaN (implementation-specific fallback formats are
not modelled).  A date-time without offset is treated as offset zero. -/
def parse2Digits : List Char → Option (Nat × List Char)
  | c1 :: c2 :: rest =>
    if c1.isDigit ∧ c2.isDigit then
      some ((c1.toNat - 48) * 10 + (c2.toNat - 48), rest)
    else none
  | _ => none

/-- Four decimal digits (the year field). -/
def parse4Digits (cs : List Char) : Option (Nat × List Char) :=
  match parse2Digits cs with
  | some (hi, rest) =>
    match parse2Digits rest with
    | some (lo, rest') => some (hi * 100 + lo, rest')
    | none => none
  | none => none

/-- Days since 1970-01-01 of a civil date (Gregorian, proleptic). -/
def daysFromCivil (y : Int) (m : Nat) (d : Nat) : Int :=
  let y' := if m ≤ 2 then y - 1 else y
  let era : Int := (if 0 ≤ y' then y' else y' - 399) / 400
  let yoe : Int := y' - era * 400
  let mp : Int := ((m : Int) + 9) % 12
  let doy : Int := (153 * mp + 2) / 5 + (d : Int) - 1
  let doe : Int := yoe * 365 + yoe / 4 - yoe / 100 + doy
  era * 146097 + doe - 719468

/-- Epoch milliseconds of a civil date-time with a UTC offset in minutes. -/
def epochMs (y : Int) (mo d hh mi ss ms : Nat) (offMin : Int) : Int :=
  ((daysFromCivil y mo d) * 86400 + (hh : Int) * 3600 + (mi : Int) * 60 + (ss : Int)) * 1000
    + (ms : Int) - offMin * 60000

/-- The trailing UTC-offset designator: empty (treated as offset zero), `Z`,
or `±HH:MM`. -/
def parseOffset : List Char → Option Int
  | [] => some 0
  | ['Z'] => some 0
  | c :: rest =>
    if c = '+' ∨ c = '-' then
      match parse2Digits rest with
      | some (hh, r2) =>
        match r2 with
        | ':' :: r3 =>
          match parse2Digits r3 with
          | some (mm, r4) =>
            if r4 = [] ∧ hh ≤ 23 ∧ mm ≤ 59 then
              some ((if c = '-' then -1 else 1) * ((hh : Int) * 60 + (mm : Int)))
            else none
          | none => none
        | _ => none
      | none => none
    else none

/-- Optional `.sss` milliseconds (exactly three digits when present). -/
def parseMillis : List Char → Option (Nat × List Char)
  | '.' :: a :: b :: c :: rest =>
    if a.isDigit ∧ b.isDigit ∧ c.isDigit then
      some ((a.toNat - 48) * 100 + (b.toNat - 48) * 10 + (c.toNat - 48), rest)
    else none
  | '.' :: _ => none
  | r => some (0, r)

/-- Optional `:SS[.sss]` seconds. -/
def parseSeconds : List Char → Option (Nat × Nat × List Char)
  | ':' :: r =>
    match parse2Digits r with
    | some (ss, r2) =>
      if ss ≤ 59 then
        match parseMillis r2 with
        | some (ms, r3) => some (ss, ms, r3)
        | none => none
      else none
    | none => none
  | '.' :: _ => none
  | r => some (0, 0, r)

/-- The time-and-offset tail `HH:MM[:SS[.sss]][Z|±HH:MM]` of a date-time. -/
def parseTimeTail (cs : List Char) : Option Int × Nat × Nat × Nat × Nat :=
  match parse2Digits cs with
  | some (hh, r1) =>
    match r1 with
    | ':' :: r2 =>
      match parse2Digits r2 with
      | some (mi, r3) =>
        if hh ≤ 23 ∧ mi ≤ 59 then
          match parseSeconds r3 with
          | some (ss, ms, r4) =>
            match parseOffset r4 with
            | some off => (some off, hh, mi, ss, ms)
            | none => (none, 0, 0, 0, 0)
          | none => (none, 0, 0, 0, 0)
        else (none, 0, 0, 0, 0)
      | none => (none, 0, 0, 0, 0)
    | _ => (none, 0, 0, 0, 0)
  | none => (none, 0, 0, 0, 0)

/-- `new Date(s).getTime()` — see the format comment on `parse2Digits`. -/
def jsDateParse (s : String) : Ts :=
  match parse4Digits s.data with
  | none => Ts.nan
  | some (y, r1) =>
    match r1 with
    | '-' :: r2 =>
      match parse2Digits r2 with
      | none => Ts.nan
      | some (mo, r3) =>
        match r3 with
        | '-' :: r4 =>
          match parse2Digits r4 with
          | none => Ts.nan
          | some (d, r5) =>
            if 1 ≤ mo ∧ mo ≤ 12 ∧ 1 ≤ d ∧ d ≤ 31 then
              match r5 with
              | [] => Ts.int (epochMs (y : Int) mo d 0 0 0 0 0)
              | 'T' :: r6 =>
                match parseTimeTail r6 with
                | (some off, hh, mi, ss, ms) =>
                  Ts.int (epochMs (y : Int) mo d hh mi ss ms off)
                | (none, _, _, _, _) => Ts.nan
              | _ => Ts.nan
            else Ts.nan
        | _ => Ts.nan
    | _ => Ts.nan

/-- Line 260 of `scrapeShopifyStore`:
`product.created_at ? new Date(product.created_at).getTime() : Date.now()`.
An absent field and the empty string are falsy; any other string is handed
to the date parser whether or not it parses. -/
def entryTimestamp (created_at : Option String) (now : Int) : Ts :=
  match created_at with
  | none => Ts.int now
  | some s => if s = "" then Ts.int now else jsDateParse s

/-- Lines 242–247: `name = product.title`, skipped unless it is a truthy
string whose trim is non-empty. -/
def nameOf (p : Product) : Option String :=
  match p.title with
  | some (TitleVal.str s) => if s ≠ "" ∧ jsTrim s ≠ "" then some s else none
  | _ => none

/-- Lines 250–251: `variant = product.variants && product.variants[0]`,
skipped when there is no variant or its `price` is falsy (absent or the
empty string). -/
def firstVariantPrice (p : Product) : Option String :=
  match p.variants with
  | some (v :: _) =>
    match v.price with
    | some pr => if pr = "" then none else some pr
    | none => none
  | _ => none

/-- Lines 239–271 of `scrapeShopifyStore`, one `products` entry: validate
the title, take the first variant's price, reject a NaN `parseFloat`, format
the price, and stamp source and timestamp. -/
def processProduct (srcName : String) (now : Int) (p : Product) : Option Watch :=
  match nameOf p with
  | none => none
  | some name =>
    match firstVariantPrice p with
    | none => none
    | some pr =>
      match parseFloatJs pr with
      | JsNum.nan => none
      | pv =>
        some { name := name
               price := "£" ++ jsToFixed2 pv
               size := none
               source := srcName
               timestamp := some (entryTimestamp p.created_at now) }

/-- `scrapeShopifyStore` after the transport layer: `data.products` is
either missing / not an array (the `Invalid response format` error) or a
list of entries, each processed independently. -/
def scrapeShopifyStore (srcName : String) (now : Int)
    (products : Option (List Product)) : Except String (List Watch) :=
  match products with
  | none => Except.error "Invalid response format from Shopify API"
  | some ps => Except.ok (ps.filterMap (processProduct srcName now))

/-! ## Heuristic markup extractor: `scrapeFalcoWatches`

The DOM boundary is modelled as the data the scraper reads from it: each
primary-selector container yields the optional text content of its name and
price elements, and each `a[href*="/products/"]` link yields its own text
plus, when `closest(...)` finds an ancestor container, that container's
optional name/price texts. -/

/-- One container matched by the primary selector union
`'.product-item, .grid-product, .product-card, [class*="product"]'`. -/
structure PrimaryItem where
  nameText : Option String
  priceText : Option String
deriving DecidableEq, Repr

/-- The ancestor container found by
`link.closest('[class*="product"], [class*="item"], .grid__item')`. -/
structure ContainerInfo where
  nameText : Option String
  priceText : Option String
deriving DecidableEq, Repr

/-- One product link found by the fallback pass. -/
structure LinkItem where
  container : Option ContainerInfo
  linkText : String
deriving DecidableEq, Repr

/-- The parsed document, as consumed by the two passes. -/
structure FalcoDoc where
  primaryItems : List PrimaryItem
  productLinks : List LinkItem
deriving Repr

/-- The size regex `/(\d+\.?\d*\s*mm)/i` matched at the start of `cs`:
one or more digits, an optional decimal point, optional further digits,
optional whitespace, then `mm` case-insensitively.  Greedy matching with
this pattern never needs backtracking that changes the outcome (a shorter
digit or whitespace run only exposes a digit or whitespace character where
`m` is required), so maximal runs are taken. -/
def sizeMatchAt (cs : List Char) : Option (List Char) :=
  let d1 := cs.takeWhile Char.isDigit
  let r1 := cs.dropWhile Char.isDigit
  if d1.isEmpty then none
  else
    let dotted : List Char × List Char :=
      match r1 with
      | '.' :: t => (['.'], t)
      | _ => ([], r1)
    let d2 := dotted.2.takeWhile Char.isDigit
    let r2 := dotted.2.dropWhile Char.isDigit
    let ws := r2.takeWhile Char.isWhitespace
    let r3 := r2.dropWhile Char.isWhitespace
    match r3 with
    | c1 :: c2 :: _ =>
      if (c1 = 'm' ∨ c1 = 'M') ∧ (c2 = 'm' ∨ c2 = 'M') then
        some (d1 ++ dotted.1 ++ d2 ++ ws ++ [c1, c2])
      else none
    | _ => none

/-- Leftmost match of the size regex. -/
def sizeSearch : List Char → Option (List Char)
  | [] => none
  | c :: rest =>
    match sizeMatchAt (c :: rest) with
    | some m => some m
    | none => sizeSearch rest

/-- `name.match(/(\d+\.?\d*\s*mm)/i)` — the matched substring, if any. -/
def sizeMatchStr (s : String) : Option String :=
  (sizeSearch s.data).map String.mk

/-- Lines 564–595: one primary container.  Name and price are the trimmed
text contents of the first elements matched by the name/price selector
lists (absent when no element matches); the candidate is accepted when both
are truthy, with the size match or the `'N/A'` sentinel. -/
def primaryCandidate (now : Int) (it : PrimaryItem) : Option Watch :=
  let name := it.nameText.map jsTrim
  let price := it.priceText.map jsTrim
  match name, price with
  | some n, some p =>
    if n ≠ "" ∧ p ≠ "" then
      some { name := n
             price := p
             size := some ((sizeMatchStr n).getD "N/A")
             source := "Falco Watches"
             timestamp := some (Ts.int now) }
    else none
  | _, _ => none

/-- The primary container pass. -/
def primaryPass (now : Int) (items : List PrimaryItem) : List Watch :=
  items.filterMap (primaryCandidate now)

/-- `String.prototype.includes`, on character lists. -/
def containsSub (needle : List Char) : List Char → Bool
  | [] => needle.isEmpty
  | c :: rest => needle.isPrefixOf (c :: rest) || containsSub needle rest

/-- Lines 604–629: one fallback product link.  Skip when no ancestor
container exists; name falls back from a nested title element to the link's
own text, price to the `'Price N/A'` sentinel; the candidate is kept when
the name is truthy, does not contain `quick` case-insensitively, and is
longer than 3 characters. -/
def fallbackCandidate (now : Int) (li : LinkItem) : Option Watch :=
  match li.container with
  | none => none
  | some c =>
    let name :=
      match c.nameText with
      | some t => jsTrim t
      | none => jsTrim li.linkText
    let price :=
      match c.priceText with
      | some t => jsTrim t
      | none => "Price N/A"
    if name ≠ "" ∧ ¬(containsSub "quick".data (jsToLower name).data) ∧ jsLength name > 3 then
      some { name := name
             price := price
             size := some ((sizeMatchStr name).getD "N/A")
             source := "Falco Watches"
             timestamp := some (Ts.int now) }
    else none

/-- The fallback product-link pass. -/
def fallbackPass (now : Int) (links : List LinkItem) : List Watch :=
  links.filterMap (fallbackCandidate now)

/-! ### Post-pass dedup (lines 632–635)

```js
const uniqueWatches = watches.filter((watch, index, self) =>
    index === self.findIndex((w) => w.name === watch.name)
);
```
-/

/-- `Array.prototype.filter` with an index-aware callback, starting at
index `i`. -/
def filterIdxFrom (f : Nat → Watch → Bool) : Nat → List Watch → List Watch
  | _, [] => []
  | i, w :: rest =>
    if f i w then w :: filterIdxFrom f (i + 1) rest
    else filterIdxFrom f (i + 1) rest

/-- The dedup filter: an element survives exactly when its index is the
first index in the whole array holding its name. -/
def dedupByName (l : List Watch) : List Watch :=
  filterIdxFrom (fun i w => l.findIdx (fun v => v.name == w.name) == i) 0 l

/-- `scrapeFalcoWatches` after the transport and DOM-parsing boundary:
primary pass, fallback only when the primary pass accepted nothing, then
dedup by name. -/
def scrapeFalcoWatches (now : Int) (doc : FalcoDoc) : List Watch :=
  let watches := primaryPass now doc.primaryItems
  let watches2 :=
    if watches.length = 0 then watches ++ fallbackPass now doc.productLinks
    else watches
  dedupByName watches2

/-! ## The price pattern of claim C6 -/

/-- After the first digit: further digits, then `.` and exactly two
digits ending the string. -/
def digitsDotTwo : List Char → Bool
  | [] => false
  | c :: rest =>
    if c = '.' then
      match rest with
      | [d1, d2] => d1.isDigit && d2.isDigit
      | _ => false
    else c.isDigit && digitsDotTwo rest

/-- `<£><digits>.<2 digits>` over the character list: the pound sign, one
or more digits, a decimal point, exactly two digits. -/
def pricePatternChars : List Char → Bool
  | '£' :: c :: rest => c.isDigit && digitsDotTwo rest
  | _ => false

/-- The price pattern of claim C6, on strings. -/
def matchesPricePattern (s : String) : Bool :=
  pricePatternChars s.data

/-! ## Claim theorems -/

/-- C2 counterexample: with zero sources configured, `refresh` raises the
no-records error and leaves the (empty) record list, rather than succeeding
with an empty result as the claim states. -/
theorem refresh_empty_registry_raises :
    refresh [] [] = ([], some noRecordsMsg) := rfl

/-- C2 (amended): the refresh operation fails with the no-records error
exactly when the concatenated record sequence is empty — including when
zero sources are configured, in which case it raises rather than
succeeding. -/
theorem refresh_noRecords_iff :
    (∀ (old : List Watch) (sources : List Source),
        (refresh old sources).2 = some noRecordsMsg ↔ collectWatches sources = [])
    ∧ ∀ old : List Watch, refresh old [] = (old, some noRecordsMsg) := by
  constructor
  · intro old sources
    unfold refresh
    by_cases h : (collectWatches sources).length = 0
    · simp [h, List.length_eq_zero.mp h]
    · simp only [if_neg h]
      constructor
      · intro he; exact absurd he (by simp)
      · intro he; exact absurd (by simp [he] : (collectWatches sources).length = 0) h
  · intro old; rfl

/-- C9: whenever a refresh cycle surfaces an error, the tracker's stored
record list is exactly what it was before the refresh; it is replaced only
on the success path. -/
theorem refresh_error_preserves_watches :
    ∀ (old : List Watch) (sources : List Source) (e : String),
      (refresh old sources).2 = some e → (refresh old sources).1 = old := by
  intro old sources e h
  unfold refresh at h ⊢
  by_cases hl : (collectWatches sources).length = 0
  · simp [hl]
  · simp [hl] at h

/-- Witness for C9 at a concrete state: one enabled source whose scraper
threw, so the refresh fails and the previously stored watch survives. -/
theorem refresh_error_preserves_watches_witness :
    (refresh [⟨"Old", "£1.00", none, "F", some (Ts.int 7)⟩]
        [⟨true, Except.error "HTTP error! status: 503"⟩]).1
      = [⟨"Old", "£1.00", none, "F", some (Ts.int 7)⟩] :=
  refresh_error_preserves_watches _ _ noRecordsMsg rfl

/-- C10: in the aggregation sort, a record whose timestamp is absent, NaN
or zero has sort key `0`, and it is placed strictly after every record
carrying a positive numeric timestamp. -/
theorem sort_falsy_timestamp_last :
    (∀ w : Watch,
        (w.timestamp = none ∨ w.timestamp = some Ts.nan ∨ w.timestamp = some (Ts.int 0)) →
        tsOrZero w = 0)
    ∧ ∀ (l : List Watch) (i j : Fin (sortWatches l).length),
        (((sortWatches l).get i).timestamp = none ∨
          ((sortWatches l).get i).timestamp = some Ts.nan ∨
          ((sortWatches l).get i).timestamp = some (Ts.int 0)) →
        ∀ v : Int, ((sortWatches l).get j).timestamp = some (Ts.int v) → 0 < v →
        (j : ℕ) < (i : ℕ) := by
  constructor
  · intro w hw
    rcases hw with h | h | h <;> (unfold tsOrZero; rw [h]; try simp)
  · intro l i j hbad v hv hpos
    have hsorted : List.Sorted tsGe (sortWatches l) :=
      List.sorted_insertionSort tsGe l
    have hpair := List.pairwise_iff_get.mp hsorted
    have hxi : tsOrZero ((sortWatches l).get i) = 0 := by
      rcases hbad with h | h | h <;> (unfold tsOrZero; rw [h]; try simp)
    have hxj : tsOrZero ((sortWatches l).get j) = v := by
      unfold tsOrZero; rw [hv]
      exact if_neg (by omega)
    by_contra hcon
    push_neg at hcon
    rcases lt_or_eq_of_le hcon with hlt | heq
    · have hle : tsOrZero ((sortWatches l).get j) ≤ tsOrZero ((sortWatches l).get i) :=
        hpair i j hlt
      rw [hxi, hxj] at hle
      omega
    · have hij : i = j := Fin.ext heq
      rw [hij, hxj] at hxi
      omega

/-- Witness for C10: a record with an absent timestamp sorts after a record
with timestamp 5. -/
theorem sort_falsy_timestamp_last_witness :
    sortWatches [⟨"Bad", "£1.00", none, "F", none⟩, ⟨"Good", "£2.00", none, "F", some (Ts.int 5)⟩]
      = [⟨"Good", "£2.00", none, "F", some (Ts.int 5)⟩, ⟨"Bad", "£1.00", none, "F", none⟩]
    ∧ (0 : ℕ) < 1 :=
  ⟨by decide,
    sort_falsy_timestamp_last.2
      [⟨"Bad", "£1.00", none, "F", none⟩, ⟨"Good", "£2.00", none, "F", some (Ts.int 5)⟩]
      ⟨1, by decide⟩ ⟨0, by decide⟩ (by decide) 5 (by decide) (by decide)⟩

/-- C4: for every (non-empty) input, the aggregated output is the first
`MAX_WATCHES` elements of the input stably sorted by timestamp descending —
the sort is a permutation of the input, sorted under the comparator's
relation, and preserves the relative order of equal keys; together with the
three concrete scenarios from the claim: timestamps `[100, 300, 200]` come
out `[300, 200, 100]`; two records with equal timestamp `100` keep their
input order `[A, B]`; 15 records against the cap of 10 yield exactly the 10
most recent. -/
theorem aggregate_sorts_caps :
    (∀ l : List Watch, l ≠ [] →
      aggregate l = (sortWatches l).take MAX_WATCHES ∧
      (sortWatches l).Perm l ∧
      List.Sorted tsGe (sortWatches l) ∧
      (∀ a b : Watch, List.Sublist [a, b] l → tsOrZero a = tsOrZero b → List.Sublist [a, b] (sortWatches l)) ∧
      (aggregate l).length = min MAX_WATCHES l.length)
    ∧ aggregate
        [⟨"A", "£1.00", none, "F", some (Ts.int 100)⟩,
         ⟨"B", "£2.00", none, "F", some (Ts.int 300)⟩,
         ⟨"C", "£3.00", none, "F", some (Ts.int 200)⟩]
        = [⟨"B", "£2.00", none, "F", some (Ts.int 300)⟩,
           ⟨"C", "£3.00", none, "F", some (Ts.int 200)⟩,
           ⟨"A", "£1.00", none, "F", some (Ts.int 100)⟩]
    ∧ aggregate
        [⟨"A", "£1.00", none, "F", some (Ts.int 100)⟩,
         ⟨"B", "£2.00", none, "F", some (Ts.int 100)⟩]
        = [⟨"A", "£1.00", none, "F", some (Ts.int 100)⟩,
           ⟨"B", "£2.00", none, "F", some (Ts.int 100)⟩]
    ∧ (aggregate ((List.range 15).map
          (fun k => ⟨"W", "£1.00", none, "F", some (Ts.int ((k : Int) + 1))⟩))).length
        = 10
    ∧ aggregate ((List.range 15).map
          (fun k => ⟨"W", "£1.00", none, "F", some (Ts.int ((k : Int) + 1))⟩))
        = (List.range 10).map
            (fun k => ⟨"W", "£1.00", none, "F", some (Ts.int (15 - (k : Int)))⟩) := by
  refine ⟨?_, by decide, by decide, by decide, by decide⟩
  intro l _
  refine ⟨rfl, List.perm_insertionSort tsGe l, List.sorted_insertionSort tsGe l, ?_, ?_⟩
  · intro a b hsub heq
    exact List.pair_sublist_insertionSort (le_of_eq heq.symm) hsub
  · rw [aggregate, sortWatches, List.length_take, List.length_insertionSort]

/-- Witness for C4 at a singleton input. -/
theorem aggregate_sorts_caps_witness :
    (aggregate [⟨"A", "£1.00", none, "F", some (Ts.int 100)⟩]).length
      = min MAX_WATCHES [(⟨"A", "£1.00", none, "F", some (Ts.int 100)⟩ : Watch)].length :=
  (aggregate_sorts_caps.1 [⟨"A", "£1.00", none, "F", some (Ts.int 100)⟩]
    (by decide)).2.2.2.2

/-! ## Dedup-by-name: supporting lemmas -/

/-- Filtering after an index-aware filter merges into one index-aware
filter with the conjoined predicate. -/
theorem filterIdxFrom_filter (f : Nat → Watch → Bool) (p : Watch → Bool) :
    ∀ (l : List Watch) (i : Nat),
      (filterIdxFrom f i l).filter p = filterIdxFrom (fun j w => f j w && p w) i l := by
  intro l
  induction l with
  | nil => intro i; rfl
  | cons w rest ih =>
    intro i
    simp only [filterIdxFrom]
    by_cases hf : f i w <;> by_cases hp : p w <;>
      simp [hf, hp, List.filter_cons, ih]

/-- `findIdx` lands exactly on the first hit after a miss-free prefix. -/
theorem findIdx_append_first {α : Type} (p : α → Bool) :
    ∀ (pre suf : List α) (w : α),
      (∀ x ∈ pre, p x = false) → p w = true →
      (pre ++ w :: suf).findIdx p = pre.length := by
  intro pre
  induction pre with
  | nil =>
    intro suf w _ hw
    simp [List.findIdx_cons, hw]
  | cons a t ih =>
    intro suf w hall hw
    have ha : p a = false := hall a (List.mem_cons_self a t)
    have ht := ih suf w (fun x hx => hall x (List.mem_cons_of_mem a hx)) hw
    simp [List.findIdx_cons, ha, ht]

/-- `findIdx` stays inside a prefix that contains a hit. -/
theorem findIdx_append_lt {α : Type} (p : α → Bool) :
    ∀ (pre suf : List α), pre.any p = true → (pre ++ suf).findIdx p < pre.length := by
  intro pre
  induction pre with
  | nil => intro suf h; simp at h
  | cons a t ih =>
    intro suf h
    by_cases ha : p a
    · simp [List.findIdx_cons, ha]
    · have ht : t.any p = true := by
        simp only [List.any_cons, ha, Bool.false_or] at h
        exact h
      have := ih suf ht
      simp [List.findIdx_cons, ha]
      omega

/-- Core characterisation of the dedup filter restricted to one name `n`:
with the already-scanned prefix `pre` in front, the survivors named `n`
among `suf` are empty when `n` already occurred in `pre`, and otherwise
exactly the first `n`-named element of `suf`. -/
theorem dedup_filter_aux (n : String) :
    ∀ (suf pre : List Watch),
      filterIdxFrom
        (fun j w => ((pre ++ suf).findIdx (fun v => v.name == w.name) == j) && (w.name == n))
        pre.length suf
      = if pre.any (fun w => w.name == n) then []
        else ((suf.find? (fun w => w.name == n)).toList) := by
  intro suf
  induction suf with
  | nil =>
    intro pre
    cases h : pre.any (fun w => w.name == n) <;> simp [filterIdxFrom, h]
  | cons w rest ih =>
    intro pre
    have ih' := ih (pre ++ [w])
    rw [List.append_assoc, List.singleton_append] at ih'
    simp only [List.length_append, List.length_singleton] at ih'
    simp only [filterIdxFrom]
    by_cases hwn : w.name = n
    · simp only [hwn]
      by_cases ha : pre.any (fun x => x.name == n) = true
      · have hlt := findIdx_append_lt (fun v => v.name == n) pre (w :: rest) ha
        have hne : ((pre ++ w :: rest).findIdx (fun v => v.name == n) == pre.length) = false := by
          simp only [beq_eq_false_iff_ne, ne_eq]
          omega
        rw [hne, Bool.false_and, if_neg Bool.false_ne_true, ih']
        simp [List.any_append, ha]
      · have hfa : pre.any (fun x => x.name == n) = false := by simpa using ha
        have hall : ∀ x ∈ pre, (fun v => v.name == n) x = false := by
          intro x hx
          by_contra hc
          exact ha (List.any_eq_true.mpr ⟨x, hx, by simpa using hc⟩)
        have hfi := findIdx_append_first (fun v => v.name == n) pre rest w hall (by simp [hwn])
        rw [hfi]
        simp only [beq_self_eq_true, Bool.and_self, if_true, ih']
        simp [List.any_append, hfa, hwn, List.find?_cons]
    · have hn : (w.name == n) = false := by simpa using hwn
      simp only [hn, Bool.and_false]
      rw [if_neg Bool.false_ne_true, ih']
      simp [List.any_append, hn, List.find?_cons]
    
/-- The dedup output restricted to a single name is precisely the first
occurrence of that name in the input (or nothing). -/
theorem dedup_filter_eq (l : List Watch) (n : String) :
    (dedupByName l).filter (fun w => w.name == n) = (l.find? (fun w => w.name == n)).toList := by
  rw [dedupByName, filterIdxFrom_filter]
  have h := dedup_filter_aux n l []
  simpa using h

/-- C3 (amended): the dedup that collapses records with identical names to
the first-seen occurrence lives in the markup extractor's post-pass, and
there it does hold: any input with two same-named records dedups to exactly
one record with that name — the first occurrence. -/
theorem dedup_collapses_duplicate_names :
    ∀ (l : List Watch) (n : String),
      2 ≤ l.countP (fun w => w.name == n) →
      ∃ w, l.find? (fun w => w.name == n) = some w ∧
        (dedupByName l).filter (fun v => v.name == n) = [w] ∧
        (dedupByName l).countP (fun v => v.name == n) = 1 := by
  intro l n h2
  have hpos : 0 < l.countP (fun w => w.name == n) := by omega
  have hex : ∃ x ∈ l, (fun w => w.name == n) x = true := List.countP_pos_iff.mp hpos
  have hsome : (l.find? (fun w => w.name == n)).isSome := List.find?_isSome.mpr hex
  obtain ⟨w, hw⟩ := Option.isSome_iff_exists.mp hsome
  refine ⟨w, hw, ?_, ?_⟩
  · rw [dedup_filter_eq, hw]; rfl
  · rw [List.countP_eq_length_filter, dedup_filter_eq, hw]; rfl

/-- Witness for the amended C3: two records named `X` around one named `Y`
collapse to one `X` survivor. -/
theorem dedup_collapses_duplicate_names_witness :
    (dedupByName
        [⟨"X", "£1.00", none, "F", some (Ts.int 100)⟩,
         ⟨"Y", "£2.00", none, "F", some (Ts.int 90)⟩,
         ⟨"X", "£3.00", none, "G", some (Ts.int 50)⟩]).countP (fun v => v.name == "X") = 1 := by
  obtain ⟨w, _, _, hc⟩ :=
    dedup_collapses_duplicate_names
      [⟨"X", "£1.00", none, "F", some (Ts.int 100)⟩,
       ⟨"Y", "£2.00", none, "F", some (Ts.int 90)⟩,
       ⟨"X", "£3.00", none, "G", some (Ts.int 50)⟩] "X" (by decide)
  exact hc

/-- C3 counterexample: the aggregation step itself does not deduplicate —
two records with the identical name `X` (different timestamps, different
sources) both survive aggregation, so its output does not contain exactly
one record with that name. -/
theorem aggregate_keeps_duplicate_names :
    aggregate
        [⟨"X", "£1.00", none, "F", some (Ts.int 100)⟩,
         ⟨"X", "£2.00", none, "G", some (Ts.int 50)⟩]
      = [⟨"X", "£1.00", none, "F", some (Ts.int 100)⟩,
         ⟨"X", "£2.00", none, "G", some (Ts.int 50)⟩]
    ∧ (aggregate
        [⟨"X", "£1.00", none, "F", some (Ts.int 100)⟩,
         ⟨"X", "£2.00", none, "G", some (Ts.int 50)⟩]).countP (fun w => w.name == "X") = 2 := by
  decide

/-- C7: the markup extractor's fallback pass participates exactly when the
primary container pass accepted zero candidates: with a non-empty primary
yield the result is the dedup of the primary candidates alone and is
independent of the document's product links (the fallback path is never
invoked); with an empty primary yield the result is the dedup of the
fallback candidates. -/
theorem fallback_iff_primary_empty :
    (∀ (now : Int) (items : List PrimaryItem) (links links' : List LinkItem),
        primaryPass now items ≠ [] →
        scrapeFalcoWatches now ⟨items, links⟩ = scrapeFalcoWatches now ⟨items, links'⟩)
    ∧ (∀ (now : Int) (items : List PrimaryItem) (links : List LinkItem),
        primaryPass now items ≠ [] →
        scrapeFalcoWatches now ⟨items, links⟩ = dedupByName (primaryPass now items))
    ∧ (∀ (now : Int) (items : List PrimaryItem) (links : List LinkItem),
        primaryPass now items = [] →
        scrapeFalcoWatches now ⟨items, links⟩ = dedupByName (fallbackPass now links)) := by
  have h2 : ∀ (now : Int) (items : List PrimaryItem) (links : List LinkItem),
      primaryPass now items ≠ [] →
      scrapeFalcoWatches now ⟨items, links⟩ = dedupByName (primaryPass now items) := by
    intro now items links h
    unfold scrapeFalcoWatches
    simp only
    rw [if_neg (fun hc => h (List.length_eq_zero.mp hc))]
  have h3 : ∀ (now : Int) (items : List PrimaryItem) (links : List LinkItem),
      primaryPass now items = [] →
      scrapeFalcoWatches now ⟨items, links⟩ = dedupByName (fallbackPass now links) := by
    intro now items links h
    unfold scrapeFalcoWatches
    simp only
    rw [h]
    simp
  exact ⟨fun now items links links' h => (h2 now items links h).trans (h2 now items links' h).symm,
         h2, h3⟩

/-- Witness for C7: a document with one well-formed primary match and one
malformed-but-linked product — the fallback pass would accept the link, yet
the output is the primary candidate alone. -/
theorem fallback_iff_primary_empty_witness :
    scrapeFalcoWatches 5
        ⟨[⟨some " Falco Explorer 42mm Steel ", some "£100"⟩],
         [⟨some ⟨none, none⟩, "Falco Phantom"⟩]⟩
      = dedupByName (primaryPass 5 [⟨some " Falco Explorer 42mm Steel ", some "£100"⟩])
    ∧ fallbackPass 5 [⟨some ⟨none, none⟩, "Falco Phantom"⟩] ≠ [] :=
  ⟨fallback_iff_primary_empty.2.1 5 _ _ (by decide), by decide⟩

/-- C8 counterexample: the sentinel emitted for a name with no size match
is the string `N/A`, not `unknown` — the primary candidate built from the
name `Falco Dress Watch` carries size `N/A`. -/
theorem size_sentinel_not_unknown :
    (primaryCandidate 7 ⟨some "Falco Dress Watch", some "£250"⟩).map Watch.size
      = some (some "N/A")
    ∧ ("N/A" : String) ≠ "unknown" := by
  constructor
  · decide
  · decide

/-- C8 (amended): the size inference applies the
digits–optional-decimal–optional-whitespace–`mm` pattern to the extracted
name: `Falco Explorer 42mm Steel` yields the matched substring `42mm`,
`Falco Dress Watch` yields no match, and every accepted candidate of either
markup pass carries the matched substring, or the sentinel `N/A` when there
is no match. -/
theorem size_inference :
    sizeMatchStr "Falco Explorer 42mm Steel" = some "42mm"
    ∧ sizeMatchStr "Falco Dress Watch" = none
    ∧ (∀ (now : Int) (it : PrimaryItem) (w : Watch),
        primaryCandidate now it = some w → w.size = some ((sizeMatchStr w.name).getD "N/A"))
    ∧ (∀ (now : Int) (li : LinkItem) (w : Watch),
        fallbackCandidate now li = some w → w.size = some ((sizeMatchStr w.name).getD "N/A")) := by
  refine ⟨by decide, by decide, ?_, ?_⟩
  · intro now it w h
    obtain ⟨ntO, ptO⟩ := it
    cases ntO with
    | none => simp [primaryCandidate] at h
    | some nt =>
      cases ptO with
      | none => simp [primaryCandidate] at h
      | some pt =>
        simp only [primaryCandidate, Option.map] at h
        split_ifs at h
        cases h; rfl
  · intro now li w h
    obtain ⟨ctO, ltxt⟩ := li
    cases ctO with
    | none => simp [fallbackCandidate] at h
    | some c =>
      obtain ⟨cnO, cpO⟩ := c
      cases cnO <;> cases cpO <;>
        (simp only [fallbackCandidate] at h; split_ifs at h; cases h; rfl)

/-- Witness for C8's general clauses at a concrete accepted candidate. -/
theorem size_inference_witness :
    primaryCandidate 7 ⟨some "Falco Explorer 42mm Steel", some "£250"⟩
      = some ⟨"Falco Explorer 42mm Steel", "£250", some "42mm", "Falco Watches", some (Ts.int 7)⟩
    ∧ (some "42mm" : Option String)
      = some ((sizeMatchStr "Falco Explorer 42mm Steel").getD "N/A") :=
  ⟨by decide,
    by
      have h := size_inference.2.2.1 7 ⟨some "Falco Explorer 42mm Steel", some "£250"⟩
        ⟨"Falco Explorer 42mm Steel", "£250", some "42mm", "Falco Watches", some (Ts.int 7)⟩
        (by decide)
      simpa using h.symm⟩

/-! ## Structured-feed extractor: supporting lemmas -/

/-- Inversion of the per-entry Shopify pipeline: an emitted record pins
down a validated name, a priced first variant whose price parses, and all
the emitted fields. -/
theorem processProduct_inv (src : String) (now : Int) (p : Product) (w : Watch)
    (h : processProduct src now p = some w) :
    ∃ name pr, nameOf p = some name ∧ firstVariantPrice p = some pr ∧
      parseFloatJs pr ≠ JsNum.nan ∧
      w = { name := name, price := "£" ++ jsToFixed2 (parseFloatJs pr), size := none,
            source := src, timestamp := some (entryTimestamp p.created_at now) } := by
  unfold processProduct at h
  split at h
  · exact absurd h (by simp)
  next name hn =>
    split at h
    · exact absurd h (by simp)
    next pr hf =>
      split at h
      next hv => exact absurd h (by simp)
      next pv hv hne =>
        cases h
        exact ⟨name, pr, hn, hf, hne, rfl⟩

/-- C1 (amended): for every accepted feed entry, a falsy `created_at`
(absent or the empty string) stamps the capture time, while any non-empty
`created_at` stamps the date parser's output — which is NaN, not the
capture time, when the string does not parse. -/
theorem shopify_timestamp_policy :
    (∀ (src : String) (now : Int) (p : Product) (w : Watch),
        processProduct src now p = some w →
        (p.created_at = none ∨ p.created_at = some "") →
        w.timestamp = some (Ts.int now))
    ∧ (∀ (src : String) (now : Int) (p : Product) (w : Watch) (s : String),
        processProduct src now p = some w → p.created_at = some s → s ≠ "" →
        w.timestamp = some (jsDateParse s)) := by
  constructor
  · intro src now p w h habs
    obtain ⟨name, pr, _, _, _, rfl⟩ := processProduct_inv src now p w h
    rcases habs with h0 | h0
    · rw [h0]; rfl
    · rw [h0]; simp [entryTimestamp]
  · intro src now p w s h hs hne
    obtain ⟨name, pr, _, _, _, rfl⟩ := processProduct_inv src now p w h
    rw [hs]
    simp [entryTimestamp, hne]

set_option maxRecDepth 8192 in
/-- Witness for the amended C1: an entry without `created_at` is stamped
with capture time 500; an entry with the unparseable `created_at` value
`garbage` is stamped with the date parser's output. -/
theorem shopify_timestamp_policy_witness :
    (⟨"A", "£10.00", none, "F", some (Ts.int 500)⟩ : Watch).timestamp = some (Ts.int 500)
    ∧ (⟨"A", "£10.00", none, "F", some Ts.nan⟩ : Watch).timestamp
        = some (jsDateParse "garbage") :=
  ⟨shopify_timestamp_policy.1 "F" 500 ⟨some (TitleVal.str "A"), some [⟨some "10"⟩], none⟩ _
      (by decide) (Or.inl rfl),
   shopify_timestamp_policy.2 "F" 500 ⟨some (TitleVal.str "A"), some [⟨some "10"⟩], some "garbage"⟩
      _ "garbage" (by decide) rfl (by decide)⟩

set_option maxRecDepth 8192 in
/-- C1 counterexample: an entry whose `created_at` is present but
unparseable is accepted with timestamp NaN — not the moment of extraction
(here 1000). -/
theorem unparseable_created_at_gives_nan :
    processProduct "Falco Watches" 1000
        ⟨some (TitleVal.str "W"), some [⟨some "10"⟩], some "garbage"⟩
      = some ⟨"W", "£10.00", none, "Falco Watches", some Ts.nan⟩
    ∧ (some Ts.nan : Option Ts) ≠ some (Ts.int 1000) := by
  exact ⟨by decide, by decide⟩

set_option maxRecDepth 8192 in
/-- C5 counterexample: the price string `Infinity` parses to a number that
is not finite, yet the extractor emits a record for the entry — the claim's
"parses as a finite decimal number" is not required by the code. -/
theorem infinite_price_accepted :
    processProduct "F" 7 ⟨some (TitleVal.str "W"), some [⟨some "Infinity"⟩], none⟩
      = some ⟨"W", "£Infinity", none, "F", some (Ts.int 7)⟩
    ∧ parseFloatJs "Infinity" = JsNum.inf false := by
  exact ⟨by decide, by decide⟩

/-- C5 (amended): the feed extractor emits a record for an entry exactly
when the title is a non-empty (after trimming) string, the first variant
exists with a truthy price field, and `parseFloat` of the price is not NaN
— infinite parses included; skipping is silent (the per-entry map is a
total function). -/
theorem shopify_accepts_iff (src : String) (now : Int) (p : Product) :
    (processProduct src now p).isSome ↔
      ((∃ s, p.title = some (TitleVal.str s) ∧ s ≠ "" ∧ jsTrim s ≠ "")
        ∧ ∃ v rest pr, p.variants = some (v :: rest) ∧ v.price = some pr ∧ pr ≠ ""
          ∧ parseFloatJs pr ≠ JsNum.nan) := by
  obtain ⟨tO, vO, cO⟩ := p
  cases tO with
  | none => simp [processProduct, nameOf]
  | some tv =>
    cases tv with
    | nonstr b => simp [processProduct, nameOf]
    | str s =>
      by_cases hs : s ≠ "" ∧ jsTrim s ≠ ""
      · cases vO with
        | none => simp [processProduct, nameOf, firstVariantPrice, hs]
        | some vs =>
          cases vs with
          | nil => simp [processProduct, nameOf, firstVariantPrice, hs]
          | cons v rest =>
            cases hvp : v.price with
            | none => simp [processProduct, nameOf, firstVariantPrice, hs, hvp]
            | some pr =>
              by_cases hpr : pr = ""
              · simp [processProduct, nameOf, firstVariantPrice, hs, hvp, hpr]
              · cases hv : parseFloatJs pr with
                | nan =>
                  simp [processProduct, nameOf, firstVariantPrice, hs, hvp, hpr, hv]
                | inf b =>
                  simp [processProduct, nameOf, firstVariantPrice, hs, hvp, hpr, hv]
                | fin b m e =>
                  simp [processProduct, nameOf, firstVariantPrice, hs, hvp, hpr, hv]
      · simp [processProduct, nameOf, hs]

/-! ## Price-pattern lemmas (C6) -/

/-- A digit value below ten renders as a digit character. -/
theorem digitChar_isDigit (d : Nat) (h : d < 10) : (digitChar d).isDigit = true := by
  interval_cases d <;> decide

/-- Every character produced by `natDigitsAux` is a digit. -/
theorem natDigitsAux_all : ∀ (fuel n : Nat), (natDigitsAux fuel n).all Char.isDigit = true := by
  intro fuel
  induction fuel with
  | zero => intro n; rfl
  | succ f ih =>
    intro n
    rw [natDigitsAux]
    by_cases h : n < 10
    · rw [if_pos h]
      simp [digitChar_isDigit n h]
    · rw [if_neg h]
      rw [List.all_append]
      simp [ih (n / 10), digitChar_isDigit (n % 10) (Nat.mod_lt n (by norm_num))]

/-- Every character of `natDigits n` is a digit. -/
theorem natDigits_all (n : Nat) : (natDigits n).all Char.isDigit = true :=
  natDigitsAux_all (n + 1) n

/-- `natDigits` never returns the empty list. -/
theorem natDigits_ne_nil (n : Nat) : natDigits n ≠ [] := by
  rw [natDigits, natDigitsAux]
  by_cases h : n < 10
  · rw [if_pos h]; simp
  · rw [if_neg h]; simp

/-- A run of digits followed by `.` and two final digits satisfies the
tail of the price pattern. -/
theorem digitsDotTwo_append (t : List Char) (d1 d2 : Char)
    (hall : t.all Char.isDigit = true) (h1 : d1.isDigit = true) (h2 : d2.isDigit = true) :
    digitsDotTwo (t ++ '.' :: [d1, d2]) = true := by
  induction t with
  | nil =>
    simp only [List.nil_append]
    simp [digitsDotTwo, h1, h2]
  | cons c t ih =>
    have hc : c.isDigit = true := by
      simp only [List.all_cons, Bool.and_eq_true] at hall; exact hall.1
    have ht : t.all Char.isDigit = true := by
      simp only [List.all_cons, Bool.and_eq_true] at hall; exact hall.2
    have hcd : ¬(c = '.') := by
      intro hcc; rw [hcc] at hc; exact absurd hc (by decide)
    simp only [List.cons_append, digitsDotTwo]
    rw [if_neg hcd]
    simp [hc, ih ht]

/-- Assembling `£`, a non-empty digit run, `.` and two digits satisfies
the price pattern. -/
theorem pricePatternChars_build (ds : List Char) (d1 d2 : Char)
    (hne : ds ≠ []) (hall : ds.all Char.isDigit = true)
    (h1 : d1.isDigit = true) (h2 : d2.isDigit = true) :
    pricePatternChars ('£' :: (ds ++ '.' :: [d1, d2])) = true := by
  cases ds with
  | nil => exact absurd rfl hne
  | cons c t =>
    have hc : c.isDigit = true := by
      simp only [List.all_cons, Bool.and_eq_true] at hall; exact hall.1
    have ht : t.all Char.isDigit = true := by
      simp only [List.all_cons, Bool.and_eq_true] at hall; exact hall.2
    simp only [List.cons_append, pricePatternChars]
    simp [hc, digitsDotTwo_append t d1 d2 ht h1 h2]

/-- C6 (amended): for every accepted feed entry whose price parses to a
finite, nonnegative value below `10^21`, the emitted price string matches
`<£><digits>.<2 digits>`.  (A negative parse prints a minus sign, an
infinite parse prints `Infinity`, and a finite value at or above `10^21`
prints in exponential notation — all outside the pattern.) -/
theorem price_pattern (src : String) (now : Int) (p : Product) (w : Watch)
    (neg : Bool) (m : Nat) (e : Int)
    (h : processProduct src now p = some w)
    (hfv : ∃ pr, firstVariantPrice p = some pr ∧ parseFloatJs pr = JsNum.fin neg m e)
    (hneg : neg = false ∨ m = 0)
    (hlt : magLtNat m e (10 ^ 21) = true) :
    matchesPricePattern w.price = true := by
  obtain ⟨name, pr', hn, hf', hnan, rfl⟩ := processProduct_inv src now p w h
  obtain ⟨pr, hf, hparse⟩ := hfv
  rw [hf'] at hf
  injection hf with hf
  subst hf
  show matchesPricePattern ("£" ++ jsToFixed2 (parseFloatJs pr')) = true
  rw [hparse]
  have hsign : ¬(neg = true ∧ m ≠ 0) := by
    rcases hneg with h0 | h0 <;> simp [h0]
  simp only [jsToFixed2]
  rw [if_neg hsign, if_pos hlt]
  rw [matchesPricePattern]
  have hdata :
      ("£" ++ ("" ++ String.mk (natDigits (toFixed2Int m e / 100)) ++ "." ++
          String.mk [digitChar (toFixed2Int m e / 10 % 10), digitChar (toFixed2Int m e % 10)])).data
        = '£' :: (natDigits (toFixed2Int m e / 100) ++ '.' ::
            [digitChar (toFixed2Int m e / 10 % 10), digitChar (toFixed2Int m e % 10)]) := by
    simp [String.data_append]
  rw [hdata]
  exact pricePatternChars_build _ _ _ (natDigits_ne_nil _) (natDigits_all _)
    (digitChar_isDigit _ (Nat.mod_lt _ (by norm_num)))
    (digitChar_isDigit _ (Nat.mod_lt _ (by norm_num)))

set_option maxRecDepth 8192 in
/-- Witness for the amended C6: the price `425.00` is accepted and the
emitted string `£425.00` matches the pattern. -/
theorem price_pattern_witness : matchesPricePattern "£425.00" = true :=
  price_pattern "F" 7 ⟨some (TitleVal.str "W"), some [⟨some "425.00"⟩], none⟩
    ⟨"W", "£425.00", none, "F", some (Ts.int 7)⟩ false 42500 (-2)
    (by decide) ⟨"425.00", by decide, by decide⟩ (Or.inl rfl) (by decide)

set_option maxRecDepth 8192 in
/-- C6 counterexample: the parseable numeric price `-5` is accepted, but
the emitted string `£-5.00` does not match `<£><digits>.<2 digits>` — the
sign breaks the pattern. -/
theorem negative_price_breaks_pattern :
    processProduct "F" 7 ⟨some (TitleVal.str "W"), some [⟨some "-5"⟩], none⟩
      = some ⟨"W", "£-5.00", none, "F", some (Ts.int 7)⟩
    ∧ matchesPricePattern "£-5.00" = false := by
  exact ⟨by decide, by decide⟩
